import Mathlib

/-!
Verification of the quickstep catalog `IndexScheme` class
(src/catalog/IndexScheme.hpp).

The class keeps a map `index_map_` from index names to vectors of
`IndexSubBlockDescription` protobuf messages.  We embed the map as an
association list (the claims under study only concern per-key lookups
and the set of keys, never the iteration order of the unordered map),
descriptions as a record carrying the protobuf fields relevant here
(the `sub_block_type` tag plus the remaining payload, represented by
the `indexed_attribute_ids` list), and each member function as a pure
Lean function.  `addIndexMapEntry` mutates the object in C++; here it
returns the `Bool` result paired with the successor state.
-/

namespace Quickstep

/-- Embedding of the protobuf message `IndexSubBlockDescription`:
`sub_block_type` is the structural type tag read by
`areIndexDescriptionsSimilar`; `indexed_attribute_ids` stands for the
other, implementation-specific fields of the message. -/
structure IndexSubBlockDescription where
  sub_block_type : Nat
  indexed_attribute_ids : List Nat
  deriving DecidableEq, Repr

/-- Embedding of `IndexScheme::areIndexDescriptionsSimilar`: returns
false when the two `sub_block_type` tags differ, true otherwise (the
attribute-id comparison is an unimplemented TODO in the source). -/
def areIndexDescriptionsSimilar (desc_a desc_b : IndexSubBlockDescription) : Bool :=
  if desc_a.sub_block_type != desc_b.sub_block_type then
    false
  else
    true

/-- Embedding of the `IndexScheme` class state: the single data member
`index_map_`, an association list from index names to description
vectors. -/
structure IndexScheme where
  index_map_ : List (String × List IndexSubBlockDescription)
  deriving DecidableEq, Repr

/-- The freshly constructed `IndexScheme()`: an empty map. -/
def emptyIndexScheme : IndexScheme := ⟨[]⟩

/-- Embedding of `IndexScheme::getNumIndices`: `index_map_.size()`. -/
def IndexScheme.getNumIndices (s : IndexScheme) : Nat :=
  s.index_map_.length

/-- Embedding of `IndexScheme::hasIndexWithName`:
`index_map_.find(index_name) != index_map_.end()`. -/
def IndexScheme.hasIndexWithName (s : IndexScheme) (index_name : String) : Bool :=
  (s.index_map_.find? (fun e => e.1 == index_name)).isSome

/-- Embedding of `IndexScheme::hasIndexWithDescription`: iterate over
every vector of descriptions for every key and report whether some
stored description is similar to the given one.  The C++ method is
`const`: it never mutates the object, which the embedding reflects by
returning only a `Bool`. -/
def IndexScheme.hasIndexWithDescription (s : IndexScheme)
    (index_description : IndexSubBlockDescription) : Bool :=
  s.index_map_.any (fun e => e.2.any (fun d => areIndexDescriptionsSimilar d index_description))

/-- Embedding of the copy loop inside `addIndexMapEntry`: starting from
an empty vector, `emplace_back` a copy of `index_descriptions[i]` for
`i = 0, 1, ..., size-1`. -/
def copyDescriptions (index_descriptions : List IndexSubBlockDescription) :
    List IndexSubBlockDescription :=
  index_descriptions.foldl (fun acc d => acc ++ [d]) []

/-- Embedding of `IndexScheme::addIndexMapEntry`: if `index_name` is
already a key, return false and leave the map untouched; otherwise copy
the descriptions into a fresh vector, store it under `index_name`, and
return true.  The result pairs the returned `Bool` with the successor
state. -/
def IndexScheme.addIndexMapEntry (s : IndexScheme) (index_name : String)
    (index_descriptions : List IndexSubBlockDescription) : Bool × IndexScheme :=
  if (s.index_map_.find? (fun e => e.1 == index_name)).isSome then
    (false, s)
  else
    (true, ⟨s.index_map_ ++ [(index_name, copyDescriptions index_descriptions)]⟩)

/-- One entry of the serialized form: an index name together with its
stored descriptions, in stored order. -/
structure IndexEntry where
  index_name : String
  index_descriptions : List IndexSubBlockDescription
  deriving DecidableEq, Repr

/-- The serialized `serialization::IndexScheme` protobuf: one repeated
field of entries. -/
structure IndexSchemeProto where
  index_entries : List IndexEntry
  deriving DecidableEq, Repr

/-- Modelled from the spec: the body of `IndexScheme::getProto` is
declared in the header but its definition is not part of the source
fragment.  Per the spec, serialization "produces a persisted
representation containing, for every (name, sequence) pair, the name
and each description in its stored order". -/
def IndexScheme.getProto (s : IndexScheme) : IndexSchemeProto :=
  ⟨s.index_map_.map (fun e => ⟨e.1, e.2⟩)⟩

/-- Modelled from the spec: the body of `IndexScheme::ReconstructFromProto`
is declared in the header but its definition is not part of the source
fragment.  Per the spec, deserialization "reconstructs a registry whose
mapping contains exactly the (name → description-sequence) pairs in the
record, in record order". -/
def ReconstructFromProto (proto : IndexSchemeProto) : IndexScheme :=
  ⟨proto.index_entries.map (fun e => (e.index_name, e.index_descriptions))⟩

/-- Observation function for the registry state: the description vector
stored under a name, if the name is a key. -/
def lookupIndex (s : IndexScheme) (index_name : String) :
    Option (List IndexSubBlockDescription) :=
  (s.index_map_.find? (fun e => e.1 == index_name)).map (fun e => e.2)

/-- Run a finite sequence of `addIndexMapEntry` calls from a starting
state, ignoring the returned booleans. -/
def applyCalls (s : IndexScheme)
    (calls : List (String × List IndexSubBlockDescription)) : IndexScheme :=
  calls.foldl (fun acc c => (acc.addIndexMapEntry c.1 c.2).2) s

/-- The number of calls in a sequence of `addIndexMapEntry` calls, run
from a starting state, that return true. -/
def countSuccesses : IndexScheme → List (String × List IndexSubBlockDescription) → Nat
  | _, [] => 0
  | s, c :: cs =>
    (if (s.addIndexMapEntry c.1 c.2).1 then 1 else 0) +
      countSuccesses (s.addIndexMapEntry c.1 c.2).2 cs

/-! Helper lemmas about the embedded operations. -/

theorem foldl_append_singleton (l acc : List IndexSubBlockDescription) :
    l.foldl (fun a d => a ++ [d]) acc = acc ++ l := by
  induction l generalizing acc with
  | nil => simp
  | cons x xs ih => simp [List.foldl, ih]

theorem copyDescriptions_eq (l : List IndexSubBlockDescription) :
    copyDescriptions l = l := by
  simp [copyDescriptions, foldl_append_singleton]

theorem find?_append_some {α : Type} {p : α → Bool} {l1 : List α} {x : α} (l2 : List α)
    (h : l1.find? p = some x) : (l1 ++ l2).find? p = some x := by
  simp [List.find?_append, h]

theorem find?_append_none {α : Type} {p : α → Bool} {l1 : List α} (l2 : List α)
    (h : l1.find? p = none) : (l1 ++ l2).find? p = l2.find? p := by
  simp [List.find?_append, h]

theorem addIndexMapEntry_of_found {s : IndexScheme} {n : String}
    {e : String × List IndexSubBlockDescription}
    (h : s.index_map_.find? (fun e => e.1 == n) = some e)
    (d : List IndexSubBlockDescription) :
    s.addIndexMapEntry n d = (false, s) := by
  simp [IndexScheme.addIndexMapEntry, h]

theorem addIndexMapEntry_of_absent {s : IndexScheme} {n : String}
    (h : s.index_map_.find? (fun e => e.1 == n) = none)
    (d : List IndexSubBlockDescription) :
    s.addIndexMapEntry n d = (true, ⟨s.index_map_ ++ [(n, d)]⟩) := by
  simp [IndexScheme.addIndexMapEntry, h, copyDescriptions_eq]

theorem hasIndexWithName_false {s : IndexScheme} {n : String}
    (h : s.hasIndexWithName n = false) :
    s.index_map_.find? (fun e => e.1 == n) = none := by
  unfold IndexScheme.hasIndexWithName at h
  cases hf : s.index_map_.find? (fun e => e.1 == n) with
  | none => rfl
  | some e => rw [hf] at h; simp at h

theorem addIndexMapEntry_true_absent {s : IndexScheme} {n : String}
    {d : List IndexSubBlockDescription}
    (h : (s.addIndexMapEntry n d).1 = true) :
    s.index_map_.find? (fun e => e.1 == n) = none := by
  cases hf : s.index_map_.find? (fun e => e.1 == n) with
  | none => rfl
  | some e => rw [addIndexMapEntry_of_found hf] at h; simp at h

theorem find?_self_after_append {l : List (String × List IndexSubBlockDescription)}
    {n : String} (h : l.find? (fun e => e.1 == n) = none)
    (d : List IndexSubBlockDescription) :
    (l ++ [(n, d)]).find? (fun e => e.1 == n) = some (n, d) := by
  rw [find?_append_none _ h]
  simp [List.find?]

theorem lookupIndex_append_self {s : IndexScheme} {n : String}
    (h : s.index_map_.find? (fun e => e.1 == n) = none)
    (d : List IndexSubBlockDescription) :
    lookupIndex ⟨s.index_map_ ++ [(n, d)]⟩ n = some d := by
  unfold lookupIndex
  rw [show (IndexScheme.mk (s.index_map_ ++ [(n, d)])).index_map_
        = s.index_map_ ++ [(n, d)] from rfl]
  rw [find?_self_after_append h]
  rfl

theorem lookupIndex_frame {s : IndexScheme} {m : String}
    {v : List IndexSubBlockDescription}
    (h : lookupIndex s m = some v) (n : String)
    (d : List IndexSubBlockDescription) :
    lookupIndex (s.addIndexMapEntry n d).2 m = some v := by
  cases hf : s.index_map_.find? (fun e => e.1 == n) with
  | some e => rw [addIndexMapEntry_of_found hf]; exact h
  | none =>
    rw [addIndexMapEntry_of_absent hf]
    unfold lookupIndex at h ⊢
    cases hm : s.index_map_.find? (fun e => e.1 == m) with
    | none => rw [hm] at h; simp at h
    | some e2 =>
      rw [hm] at h
      rw [show (IndexScheme.mk (s.index_map_ ++ [(n, d)])).index_map_
            = s.index_map_ ++ [(n, d)] from rfl]
      rw [find?_append_some _ hm]
      exact h

theorem lookupIndex_applyCalls {s : IndexScheme} {m : String}
    {v : List IndexSubBlockDescription}
    (h : lookupIndex s m = some v)
    (calls : List (String × List IndexSubBlockDescription)) :
    lookupIndex (applyCalls s calls) m = some v := by
  induction calls generalizing s with
  | nil => exact h
  | cons c cs ih => exact ih (lookupIndex_frame h c.1 c.2)

theorem getNumIndices_addIndexMapEntry (s : IndexScheme) (n : String)
    (d : List IndexSubBlockDescription) :
    (s.addIndexMapEntry n d).2.getNumIndices =
      s.getNumIndices + (if (s.addIndexMapEntry n d).1 then 1 else 0) := by
  cases hf : s.index_map_.find? (fun e => e.1 == n) with
  | some e => rw [addIndexMapEntry_of_found hf]; simp
  | none => rw [addIndexMapEntry_of_absent hf]; simp [IndexScheme.getNumIndices]

theorem applyCalls_getNumIndices
    (calls : List (String × List IndexSubBlockDescription)) :
    ∀ s : IndexScheme,
      (applyCalls s calls).getNumIndices = s.getNumIndices + countSuccesses s calls := by
  induction calls with
  | nil => intro s; rfl
  | cons c cs ih =>
    intro s
    rw [show applyCalls s (c :: cs) = applyCalls (s.addIndexMapEntry c.1 c.2).2 cs from rfl]
    rw [ih, getNumIndices_addIndexMapEntry]
    rw [show countSuccesses s (c :: cs)
          = (if (s.addIndexMapEntry c.1 c.2).1 then 1 else 0)
            + countSuccesses (s.addIndexMapEntry c.1 c.2).2 cs from rfl]
    omega

theorem map_entry_roundtrip (l : List (String × List IndexSubBlockDescription)) :
    (l.map (fun e => IndexEntry.mk e.1 e.2)).map
        (fun e => (e.index_name, e.index_descriptions)) = l := by
  induction l with
  | nil => rfl
  | cons x xs ih => simp [ih]

theorem reconstruct_getProto (s : IndexScheme) :
    ReconstructFromProto s.getProto = s := by
  unfold ReconstructFromProto IndexScheme.getProto
  rw [map_entry_roundtrip]

/-! Claim theorems. -/

/-- Claim C1: for every registry built by a finite sequence of
`addIndexMapEntry` calls, deserializing (`ReconstructFromProto`) the
record produced by `getProto` yields a registry equal to the original —
in particular its mapping has the same keys, and under each key the
same sequence of index descriptions in the same order. -/
theorem C1_serialize_roundtrip
    (calls : List (String × List IndexSubBlockDescription)) :
    ReconstructFromProto (applyCalls emptyIndexScheme calls).getProto
      = applyCalls emptyIndexScheme calls :=
  reconstruct_getProto (applyCalls emptyIndexScheme calls)

/-- Claim C2: if `addIndexMapEntry n d1` succeeded, a subsequent
`addIndexMapEntry n d2` returns false and leaves the whole mapping
unchanged, with `n` still mapped to `d1`; and registering `d2` under
the not-yet-present name `n` directly returns true and installs the
full sequence `d2` under `n` (the operation is atomic: either the full
sequence is installed, or the state is exactly the previous one). -/
theorem C2_name_uniqueness_atomicity (s : IndexScheme) (n : String)
    (d1 d2 : List IndexSubBlockDescription)
    (h : (s.addIndexMapEntry n d1).1 = true) :
    ((s.addIndexMapEntry n d1).2.addIndexMapEntry n d2).1 = false
    ∧ ((s.addIndexMapEntry n d1).2.addIndexMapEntry n d2).2 = (s.addIndexMapEntry n d1).2
    ∧ lookupIndex (s.addIndexMapEntry n d1).2 n = some d1
    ∧ (s.addIndexMapEntry n d2).1 = true
    ∧ lookupIndex (s.addIndexMapEntry n d2).2 n = some d2 := by
  have hf := addIndexMapEntry_true_absent h
  have h1 := addIndexMapEntry_of_absent hf d1
  have h2 := addIndexMapEntry_of_absent hf d2
  have hfound := find?_self_after_append hf d1
  refine ⟨?_, ?_, ?_, ?_, ?_⟩
  · rw [h1]
    rw [addIndexMapEntry_of_found hfound d2]
  · rw [h1]
    rw [addIndexMapEntry_of_found hfound d2]
  · rw [h1]
    exact lookupIndex_append_self hf d1
  · rw [h2]
  · rw [h2]
    exact lookupIndex_append_self hf d2

/-- Witness for C2 at a concrete input. -/
theorem C2_name_uniqueness_atomicity_witness :
    ((emptyIndexScheme.addIndexMapEntry "idx1"
        [⟨0, [1]⟩]).2.addIndexMapEntry "idx1" [⟨1, [2]⟩]).1 = false :=
  (C2_name_uniqueness_atomicity emptyIndexScheme "idx1"
    [⟨0, [1]⟩] [⟨1, [2]⟩] (by decide)).1

/-- Claim C3: two index descriptions are similar exactly when their
`sub_block_type` tags are equal; since the equivalence fixes the result
in both directions, no other field of either description affects it. -/
theorem C3_similar_iff_same_tag (a b : IndexSubBlockDescription) :
    areIndexDescriptionsSimilar a b = true ↔ a.sub_block_type = b.sub_block_type := by
  unfold areIndexDescriptionsSimilar
  by_cases h : a.sub_block_type = b.sub_block_type <;> simp [h]

/-- Claim C4: `hasIndexWithDescription c` returns true exactly when some
description stored under some registered name is similar to `c`; in
particular, once a description with the tag of `c` is stored anywhere,
the query answers true for `c` no matter what the other parameters of
`c` are.  The C++ method is `const`, so the embedding is a pure
function of the state: the call has no side effects. -/
theorem C4_hasIndexWithDescription_iff (s : IndexScheme)
    (c : IndexSubBlockDescription) :
    (s.hasIndexWithDescription c = true ↔
      ∃ e ∈ s.index_map_, ∃ d ∈ e.2, areIndexDescriptionsSimilar d c = true)
    ∧ ((∃ e ∈ s.index_map_, ∃ d ∈ e.2, d.sub_block_type = c.sub_block_type) →
        s.hasIndexWithDescription c = true) := by
  constructor
  · unfold IndexScheme.hasIndexWithDescription
    simp [List.any_eq_true]
  · rintro ⟨e, he, d, hd, ht⟩
    unfold IndexScheme.hasIndexWithDescription
    rw [List.any_eq_true]
    refine ⟨e, he, ?_⟩
    rw [List.any_eq_true]
    exact ⟨d, hd, by simp [areIndexDescriptionsSimilar, ht]⟩

/-- Witness for C4: a BTREE-like tag 0 stored over attribute 1 makes the
query true for a candidate with tag 0 over attribute 2. -/
theorem C4_hasIndexWithDescription_iff_witness :
    (IndexScheme.mk [("idx1", [⟨0, [1]⟩])]).hasIndexWithDescription ⟨0, [2]⟩ = true :=
  (C4_hasIndexWithDescription_iff (IndexScheme.mk [("idx1", [⟨0, [1]⟩])]) ⟨0, [2]⟩).2
    ⟨("idx1", [⟨0, [1]⟩]), by simp, ⟨0, [1]⟩, by simp, rfl⟩

/-- Claim C5: over any finite call sequence from the empty registry,
`getNumIndices` equals the number of `addIndexMapEntry` calls that
returned true (each such call is necessarily for a distinct name); a
failed call leaves the count unchanged; and a freshly constructed
registry has count 0 with `hasIndexWithName` false for every name. -/
theorem C5_count_consistency
    (calls : List (String × List IndexSubBlockDescription)) :
    (applyCalls emptyIndexScheme calls).getNumIndices
      = countSuccesses emptyIndexScheme calls
    ∧ emptyIndexScheme.getNumIndices = 0
    ∧ (∀ n, emptyIndexScheme.hasIndexWithName n = false)
    ∧ (∀ (s : IndexScheme) (n : String) (d : List IndexSubBlockDescription),
        (s.addIndexMapEntry n d).1 = false →
          (s.addIndexMapEntry n d).2.getNumIndices = s.getNumIndices) := by
  refine ⟨?_, rfl, fun n => rfl, ?_⟩
  · rw [applyCalls_getNumIndices]
    simp [emptyIndexScheme, IndexScheme.getNumIndices]
  · intro s n d h
    rw [getNumIndices_addIndexMapEntry, h]
    rfl

/-- Witness for C5: a second registration of the same name fails and
leaves the count unchanged. -/
theorem C5_count_consistency_witness :
    ((emptyIndexScheme.addIndexMapEntry "a" []).2.addIndexMapEntry "a" []).2.getNumIndices
      = (emptyIndexScheme.addIndexMapEntry "a" []).2.getNumIndices :=
  (C5_count_consistency []).2.2.2 (emptyIndexScheme.addIndexMapEntry "a" []).2
    "a" [] (by decide)

/-- Counterexample to claim C6 as stated: registering the empty
description vector under a fresh name succeeds, yet the sequence stored
under the name is empty — so it is not the case that the stored
sequence is non-empty after every successful registration. -/
theorem C6_counterexample :
    (emptyIndexScheme.addIndexMapEntry "idx" []).1 = true
    ∧ ¬ (∀ l, lookupIndex (emptyIndexScheme.addIndexMapEntry "idx" []).2 "idx"
          = some l → l ≠ []) :=
  ⟨by decide, fun h => h [] (by decide) rfl⟩

/-- Claim C6 as amended: immediately after a successful
`addIndexMapEntry n d` call the sequence stored under `n` is exactly
`d`, hence non-empty whenever the descriptions passed in are
non-empty. -/
theorem C6_amended_nonempty (s : IndexScheme) (n : String)
    (d : List IndexSubBlockDescription)
    (h : (s.addIndexMapEntry n d).1 = true) (hd : d ≠ []) :
    ∃ l, lookupIndex (s.addIndexMapEntry n d).2 n = some l ∧ l ≠ [] := by
  have hf := addIndexMapEntry_true_absent h
  refine ⟨d, ?_, hd⟩
  rw [addIndexMapEntry_of_absent hf d]
  exact lookupIndex_append_self hf d

/-- Witness for the amended C6 at a concrete input. -/
theorem C6_amended_nonempty_witness :
    ∃ l, lookupIndex (emptyIndexScheme.addIndexMapEntry "idx" [⟨0, []⟩]).2 "idx"
      = some l ∧ l ≠ [] :=
  C6_amended_nonempty emptyIndexScheme "idx" [⟨0, []⟩] (by decide) (by decide)

/-- Claim C7: after a successful `addIndexMapEntry n d`, the sequence
stored under `n` is exactly the input sequence `d` (same length, equal
elements, same order), and it stays exactly `d` under any further
sequence of `addIndexMapEntry` calls — the only mutating operation of
the class. -/
theorem C7_stored_copy_preserved (s : IndexScheme) (n : String)
    (d : List IndexSubBlockDescription)
    (h : (s.addIndexMapEntry n d).1 = true) :
    lookupIndex (s.addIndexMapEntry n d).2 n = some d
    ∧ ∀ calls, lookupIndex (applyCalls (s.addIndexMapEntry n d).2 calls) n = some d := by
  have hf := addIndexMapEntry_true_absent h
  have hl : lookupIndex (s.addIndexMapEntry n d).2 n = some d := by
    rw [addIndexMapEntry_of_absent hf d]
    exact lookupIndex_append_self hf d
  exact ⟨hl, fun calls => lookupIndex_applyCalls hl calls⟩

/-- Witness for C7 at a concrete input. -/
theorem C7_stored_copy_preserved_witness :
    lookupIndex (emptyIndexScheme.addIndexMapEntry "idx" [⟨5, [7]⟩]).2 "idx"
      = some [⟨5, [7]⟩] :=
  (C7_stored_copy_preserved emptyIndexScheme "idx" [⟨5, [7]⟩] (by decide)).1

/-- Claim C8: `addIndexMapEntry` — the sole mutating operation — is
monotonic: whatever its boolean outcome, every name that was a key
before the call is still a key afterwards and maps to exactly the same
description sequence. -/
theorem C8_registration_monotonic (s : IndexScheme) (n : String)
    (d : List IndexSubBlockDescription) (m : String)
    (v : List IndexSubBlockDescription)
    (h : lookupIndex s m = some v) :
    lookupIndex (s.addIndexMapEntry n d).2 m = some v :=
  lookupIndex_frame h n d

/-- Witness for C8 at a concrete input. -/
theorem C8_registration_monotonic_witness :
    lookupIndex ((IndexScheme.mk [("a", [⟨1, []⟩])]).addIndexMapEntry "b" []).2 "a"
      = some [⟨1, []⟩] :=
  C8_registration_monotonic (IndexScheme.mk [("a", [⟨1, []⟩])]) "b" [] "a"
    [⟨1, []⟩] (by decide)

/-- Claim C9: `addIndexMapEntry` checks only name uniqueness, never
similarity: for every state and every name not yet a key, it returns
true — with no hypothesis about `hasIndexWithDescription`, so in
particular even when every description passed in is similar to
descriptions already stored under another name. -/
theorem C9_fresh_name_succeeds (s : IndexScheme) (n2 : String)
    (d : List IndexSubBlockDescription)
    (h : s.hasIndexWithName n2 = false) :
    (s.addIndexMapEntry n2 d).1 = true := by
  rw [addIndexMapEntry_of_absent (hasIndexWithName_false h) d]

/-- Witness for C9: registering "idx2" with a tag-0 description succeeds
although "idx1" already stores a similar (same tag 0) description. -/
theorem C9_fresh_name_succeeds_witness :
    ((IndexScheme.mk [("idx1", [⟨0, [1]⟩])]).addIndexMapEntry "idx2" [⟨0, [2]⟩]).1 = true :=
  C9_fresh_name_succeeds (IndexScheme.mk [("idx1", [⟨0, [1]⟩])]) "idx2"
    [⟨0, [2]⟩] (by decide)

/-- Claim C10: registering an empty description sequence under a fresh
name succeeds, increments `getNumIndices` by one, makes
`hasIndexWithName` true for the name, and leaves
`hasIndexWithDescription` unchanged for every candidate — an index name
can exist with zero descriptions. -/
theorem C10_empty_descriptions_register (s : IndexScheme) (n : String)
    (h : s.hasIndexWithName n = false) :
    (s.addIndexMapEntry n []).1 = true
    ∧ (s.addIndexMapEntry n []).2.getNumIndices = s.getNumIndices + 1
    ∧ (s.addIndexMapEntry n []).2.hasIndexWithName n = true
    ∧ ∀ c, (s.addIndexMapEntry n []).2.hasIndexWithDescription c
        = s.hasIndexWithDescription c := by
  have hf := hasIndexWithName_false h
  rw [addIndexMapEntry_of_absent hf []]
  refine ⟨rfl, ?_, ?_, ?_⟩
  · simp [IndexScheme.getNumIndices]
  · unfold IndexScheme.hasIndexWithName
    rw [show (IndexScheme.mk (s.index_map_ ++ [(n, [])])).index_map_
          = s.index_map_ ++ [(n, [])] from rfl]
    rw [find?_self_after_append hf []]
    rfl
  · intro c
    unfold IndexScheme.hasIndexWithDescription
    rw [show (IndexScheme.mk (s.index_map_ ++ [(n, [])])).index_map_
          = s.index_map_ ++ [(n, [])] from rfl]
    simp [List.any_append]

/-- Witness for C10 at a concrete input. -/
theorem C10_empty_descriptions_register_witness :
    (emptyIndexScheme.addIndexMapEntry "n" []).2.getNumIndices
      = emptyIndexScheme.getNumIndices + 1 :=
  (C10_empty_descriptions_register emptyIndexScheme "n" (by decide)).2.1

end Quickstep
